import Mathlib

/-!
# Verification of the AIP dual-protocol dispatcher and AICF wire codec

Shallow embedding of the core of the `aip` repository:

* the compact pipe-delimited wire codec
  (`src/services/figma/src/utils/port-manager.ts`: `parseAICFRequest`,
  `splitByPipe`, `unescapeString`, `escapeString`, `parseArgument`,
  `serializeAICFRequest`, `serializeAICFResponse`, `serializeToolList`,
  `serializeToolInfo`);
* the JSON-RPC envelope (`src/src/utils/jsonrpc.ts`: `validateJSONRPCRequest`);
* the dispatcher (`AIPServer`: `handleRequest`, `handleAICFRequest`,
  `handleToolInvoke`, `convertArrayToObject`, `cleanupSessions`).

JavaScript dynamic values are modelled by the inductive `Value`; JS numbers
are modelled as exact rationals (adequate here: every number the claims touch
is a small decimal that float64 represents exactly).  Thrown JS `Error`
values are modelled by their message string (`Except String`).  ISO date
strings are modelled by their epoch-millisecond value.
-/

namespace AIP

/-- A JavaScript runtime value as it flows through the dispatcher.
`undefined` models JS `undefined` and is distinct from `null`. -/
inductive Value where
  | str (s : String)
  | num (q : Rat)
  | bool (b : Bool)
  | null
  | undefined
  | obj (fields : List (String × Value))
  | arr (elems : List Value)
deriving Repr, Inhabited

/-! ## String primitives (models of the JS builtins the codec uses) -/

/-- Left-to-right global replacement of the single character `p` by `rep`.
This models the JS builtin `String.prototype.replace` with a global regex
whose pattern is one literal character (as `escapeString` uses it). -/
def replace1 (p : Char) (rep : List Char) : List Char → List Char
  | [] => []
  | c :: rest => (if c = p then rep else [c]) ++ replace1 p rep rest

/-- Left-to-right, non-overlapping global replacement of the two-character
sequence `p1 p2` by `rep`; the replacement text is not rescanned.  This
models `String.prototype.replace` with a global regex whose pattern is two
literal characters (as `unescapeString` uses it). -/
def replace2 (p1 p2 : Char) (rep : List Char) : List Char → List Char
  | [] => []
  | [c] => [c]
  | c1 :: c2 :: rest =>
    if c1 = p1 ∧ c2 = p2 then rep ++ replace2 p1 p2 rep rest
    else c1 :: replace2 p1 p2 rep (c2 :: rest)

/-- String wrapper for `replace1`. -/
def jsReplace1 (s : String) (p : Char) (rep : String) : String :=
  ⟨replace1 p rep.data s.data⟩

/-- String wrapper for `replace2`. -/
def jsReplace2 (s : String) (p1 p2 : Char) (rep : String) : String :=
  ⟨replace2 p1 p2 rep.data s.data⟩

/-- `unescapeString` from port-manager.ts: four sequential global replaces,
`\n` → newline, then `\t` → tab, then `\|` → `|`, then `\\` → `\`. -/
def unescapeString (s : String) : String :=
  jsReplace2 (jsReplace2 (jsReplace2 (jsReplace2 s '\\' 'n' "\n") '\\' 't' "\t") '\\' '|' "|") '\\' '\\' "\\"

/-- `escapeString` from port-manager.ts: four sequential global replaces,
`\` → `\\`, then `|` → `\|`, then newline → `\n`, then tab → `\t`. -/
def escapeString (s : String) : String :=
  jsReplace1 (jsReplace1 (jsReplace1 (jsReplace1 s '\\' "\\\\") '|' "\\|") '\n' "\\n") '\t' "\\t"

/-- The character-consuming loop of `splitByPipe` (port-manager.ts lines
402–421), with the loop state (`parts`, `current`, `escaped`) made explicit. -/
def splitLoop : List Char → List (List Char) → List Char → Bool →
    List (List Char) × List Char
  | [], parts, current, _ => (parts, current)
  | c :: rest, parts, current, escaped =>
    if escaped then splitLoop rest parts (current ++ [c]) false
    else if c = '\\' then splitLoop rest parts current true
    else if c = '|' then splitLoop rest (parts ++ [current]) [] false
    else splitLoop rest parts (current ++ [c]) false

/-- `splitByPipe` on character lists: run the loop, then add the last part
when `current` is truthy (non-empty) or the raw input ends with `|`. -/
def splitByPipeL (cs : List Char) : List (List Char) :=
  let r := splitLoop cs [] [] false
  if r.2 ≠ [] ∨ cs.getLast? = some '|' then r.1 ++ [r.2] else r.1

/-- `splitByPipe` from port-manager.ts. -/
def splitByPipe (s : String) : List String :=
  (splitByPipeL s.data).map (fun l => ⟨l⟩)

/-- The whitespace set of JS `String.prototype.trim` (WhiteSpace ∪
LineTerminator code points). -/
def isJsSpace (c : Char) : Bool :=
  decide (c = ' ' ∨ c = '\t' ∨ c = '\n' ∨ c = '\r' ∨ c = '\x0b' ∨ c = '\x0c' ∨
    c = '\xa0' ∨ c = ' ' ∨ (' ' ≤ c ∧ c ≤ ' ') ∨ c = ' ' ∨
    c = ' ' ∨ c = ' ' ∨ c = ' ' ∨ c = '　' ∨ c = '﻿')

/-- JS `String.prototype.trim`. -/
def jsTrim (s : String) : String :=
  ⟨((s.data.dropWhile isJsSpace).reverse.dropWhile isJsSpace).reverse⟩

/-- JS `String.prototype.toUpperCase`, restricted to the ASCII range (the
only case-mapping the command words of the grammar can exercise). -/
def asciiUpper (s : String) : String :=
  ⟨s.data.map Char.toUpper⟩

/-! ## Number and JSON models (JS builtins `Number`, `JSON.parse`,
`JSON.stringify`) -/

/-- Digit run to a natural number. -/
def digitsToNat (cs : List Char) : Nat :=
  cs.foldl (fun n c => 10 * n + (c.toNat - 48)) 0

/-- The body (after an optional leading `-`) of the numeric pattern
`/^-?\d+(\.\d+)?$/` used by `parseArgument`. -/
def numericBody (cs : List Char) : Bool :=
  match cs.splitOn '.' with
  | [w] => w ≠ [] && w.all Char.isDigit
  | [w, f] => w ≠ [] && w.all Char.isDigit && f ≠ [] && f.all Char.isDigit
  | _ => false

/-- Test of the regex `/^-?\d+(\.\d+)?$/` from `parseArgument`. -/
def numericPat (s : String) : Bool :=
  match s.data with
  | '-' :: rest => numericBody rest
  | cs => numericBody cs

/-- Absolute value of a decimal literal, as an exact rational. -/
def decAbs (cs : List Char) : Rat :=
  match cs.splitOn '.' with
  | [w] => (digitsToNat w : Rat)
  | [w, f] => mkRat (digitsToNat w * 10 ^ f.length + digitsToNat f) (10 ^ f.length)
  | _ => 0

/-- JS `Number(s)` for strings matching the numeric pattern, modelled as the
exact rational value of the decimal literal. -/
def jsNumber (s : String) : Rat :=
  match s.data with
  | '-' :: rest => -(decAbs rest)
  | cs => decAbs cs

/-- Smallest `k` (searched up to 40) with `d ∣ 10^k`. -/
def pow10Exp (d : Nat) : Option Nat :=
  (List.range 40).find? (fun k => 10 ^ k % d = 0)

/-- JS `String(n)` for a number `n`, modelled exactly for numbers that are
finite decimals (every number produced by the codec is); other rationals
(unreachable from the codec) fall back to a fraction rendering. -/
def ratToJSString (q : Rat) : String :=
  if q = 0 then "0"
  else
    let sign := if q < 0 then "-" else ""
    let n := q.num.natAbs
    let d := q.den
    match pow10Exp d with
    | some 0 => sign ++ toString n
    | some k =>
      let scaled := n * 10 ^ k / d
      let s := toString scaled
      let s := if s.length ≤ k then ⟨List.replicate (k + 1 - s.length) '0'⟩ ++ s else s
      sign ++ (⟨s.data.take (s.data.length - k)⟩ : String) ++ "." ++ (⟨s.data.drop (s.data.length - k)⟩ : String)
    | none => sign ++ toString n ++ "/" ++ toString d

/-- Hexadecimal digit (lower case). -/
def hexDigit (n : Nat) : Char :=
  if n < 10 then Char.ofNat (48 + n) else Char.ofNat (87 + n)

/-- Four-digit hex rendering for `\uXXXX` escapes. -/
def hex4 (n : Nat) : List Char :=
  [hexDigit (n / 4096 % 16), hexDigit (n / 256 % 16), hexDigit (n / 16 % 16),
   hexDigit (n % 16)]

/-- JSON string-character escaping, as produced by `JSON.stringify`. -/
def jsonEscapeChar (c : Char) : List Char :=
  if c = '"' then ['\\', '"']
  else if c = '\\' then ['\\', '\\']
  else if c = '\n' then ['\\', 'n']
  else if c = '\t' then ['\\', 't']
  else if c = '\r' then ['\\', 'r']
  else if c = '\x08' then ['\\', 'b']
  else if c = '\x0c' then ['\\', 'f']
  else if c.toNat < 32 then '\\' :: 'u' :: hex4 c.toNat
  else [c]

/-- A JSON-quoted string literal. -/
def jsonQuote (s : String) : String :=
  ⟨'"' :: (s.data.flatMap jsonEscapeChar ++ ['"'])⟩

/-- Comma-join. -/
def joinComma : List String → String
  | [] => ""
  | [x] => x
  | x :: xs => x ++ "," ++ joinComma xs

mutual

/-- JS builtin `JSON.stringify`; `none` models the `undefined` result for a
top-level `undefined`.  Inside arrays `undefined` renders as `null`; inside
objects the member is skipped. -/
def stringifyV : Value → Option String
  | .str s => some (jsonQuote s)
  | .num q => some (ratToJSString q)
  | .bool b => some (if b then "true" else "false")
  | .null => some "null"
  | .undefined => none
  | .arr es => some ("[" ++ joinComma (stringifyArr es) ++ "]")
  | .obj fs => some ("\x7b" ++ joinComma (stringifyFields fs) ++ "\x7d")

/-- Array elements under `JSON.stringify`. -/
def stringifyArr : List Value → List String
  | [] => []
  | v :: vs => ((stringifyV v).getD "null") :: stringifyArr vs

/-- Object members under `JSON.stringify`. -/
def stringifyFields : List (String × Value) → List String
  | [] => []
  | (k, v) :: fs =>
    match stringifyV v with
    | none => stringifyFields fs
    | some sv => (jsonQuote k ++ ":" ++ sv) :: stringifyFields fs

end

/-- The whitespace characters JSON allows between tokens. -/
def jsonWs (c : Char) : Bool :=
  decide (c = ' ' ∨ c = '\t' ∨ c = '\n' ∨ c = '\r')

/-- Skip JSON whitespace. -/
def skipWs (cs : List Char) : List Char :=
  cs.dropWhile jsonWs

/-- Value of a hex digit. -/
def hexVal? (c : Char) : Option Nat :=
  if '0' ≤ c ∧ c ≤ '9' then some (c.toNat - 48)
  else if 'a' ≤ c ∧ c ≤ 'f' then some (c.toNat - 87)
  else if 'A' ≤ c ∧ c ≤ 'F' then some (c.toNat - 55)
  else none

/-- A JSON number token: `-? int frac? exp?` with the leading-zero
restriction; returns its exact rational value and the remaining input. -/
def parseJNumber (cs : List Char) : Option (Value × List Char) :=
  let p := match cs with
    | '-' :: r => (true, r)
    | _ => (false, cs)
  let intDigits := p.2.takeWhile Char.isDigit
  let cs2 := p.2.dropWhile Char.isDigit
  if intDigits = [] then none
  else if intDigits.head? = some '0' ∧ intDigits.length > 1 then none
  else
    let fp : Option (List Char × List Char) := match cs2 with
      | '.' :: r =>
        let fd := r.takeWhile Char.isDigit
        if fd = [] then none
        else some (fd, r.dropWhile Char.isDigit)
      | _ => some ([], cs2)
    match fp with
    | none => none
    | some (fd, cs3) =>
      let ep : Option (Int × List Char) := match cs3 with
        | 'e' :: r | 'E' :: r =>
          let q := match r with
            | '-' :: r2 => ((-1 : Int), r2)
            | '+' :: r2 => ((1 : Int), r2)
            | _ => ((1 : Int), r)
          let ed := q.2.takeWhile Char.isDigit
          if ed = [] then none
          else some (q.1 * (digitsToNat ed : Int), q.2.dropWhile Char.isDigit)
        | _ => some (0, cs3)
      match ep with
      | none => none
      | some (ex, cs4) =>
        let mantissa : Nat := digitsToNat intDigits * 10 ^ fd.length + digitsToNat fd
        let scaled : Rat :=
          if ex ≥ 0 then mkRat (mantissa * 10 ^ ex.toNat) (10 ^ fd.length)
          else mkRat mantissa (10 ^ fd.length * 10 ^ (-ex).toNat)
        some (.num (if p.1 then -scaled else scaled), cs4)

mutual

/-- One JSON value (fuelled recursive descent; fuel bounds nesting).  This
models the JS builtin `JSON.parse` that `parseArgument` calls. -/
def parseJVal : Nat → List Char → Option (Value × List Char)
  | 0, _ => none
  | fuel + 1, cs =>
    match skipWs cs with
    | '{' :: rest =>
      match skipWs rest with
      | '}' :: rest2 => some (.obj [], rest2)
      | rest2 =>
        match parseJMembers fuel rest2 with
        | some (fs, r) => some (.obj fs, r)
        | none => none
    | '[' :: rest =>
      match skipWs rest with
      | ']' :: rest2 => some (.arr [], rest2)
      | rest2 =>
        match parseJElems fuel rest2 with
        | some (es, r) => some (.arr es, r)
        | none => none
    | '"' :: rest =>
      match parseJString fuel rest with
      | some (s, r) => some (.str s, r)
      | none => none
    | 't' :: 'r' :: 'u' :: 'e' :: rest => some (.bool true, rest)
    | 'f' :: 'a' :: 'l' :: 's' :: 'e' :: rest => some (.bool false, rest)
    | 'n' :: 'u' :: 'l' :: 'l' :: rest => some (.null, rest)
    | cs2 => parseJNumber cs2

/-- JSON object members after the opening `{` (at least one member). -/
def parseJMembers : Nat → List Char → Option (List (String × Value) × List Char)
  | 0, _ => none
  | fuel + 1, cs =>
    match skipWs cs with
    | '"' :: rest =>
      match parseJString fuel rest with
      | some (k, r1) =>
        match skipWs r1 with
        | ':' :: r2 =>
          match parseJVal fuel r2 with
          | some (v, r3) =>
            match skipWs r3 with
            | ',' :: r4 =>
              match parseJMembers fuel r4 with
              | some (fs, r5) => some ((k, v) :: fs, r5)
              | none => none
            | '}' :: r4 => some ([(k, v)], r4)
            | _ => none
          | none => none
        | _ => none
      | none => none
    | _ => none

/-- JSON array elements after the opening `[` (at least one element). -/
def parseJElems : Nat → List Char → Option (List Value × List Char)
  | 0, _ => none
  | fuel + 1, cs =>
    match parseJVal fuel cs with
    | some (v, r) =>
      match skipWs r with
      | ',' :: r2 =>
        match parseJElems fuel r2 with
        | some (es, r3) => some (v :: es, r3)
        | none => none
      | ']' :: r2 => some ([v], r2)
      | _ => none
    | none => none

/-- A JSON string body after the opening quote. -/
def parseJString : Nat → List Char → Option (String × List Char)
  | 0, _ => none
  | fuel + 1, cs =>
    match cs with
    | '"' :: rest => some ("", rest)
    | '\\' :: e :: rest =>
      let c? : Option (Char × List Char) :=
        if e = '"' then some ('"', rest)
        else if e = '\\' then some ('\\', rest)
        else if e = '/' then some ('/', rest)
        else if e = 'n' then some ('\n', rest)
        else if e = 't' then some ('\t', rest)
        else if e = 'r' then some ('\r', rest)
        else if e = 'b' then some ('\x08', rest)
        else if e = 'f' then some ('\x0c', rest)
        else if e = 'u' then
          match rest with
          | h1 :: h2 :: h3 :: h4 :: rest2 =>
            match hexVal? h1, hexVal? h2, hexVal? h3, hexVal? h4 with
            | some a, some b, some c, some d =>
              some (Char.ofNat (4096 * a + 256 * b + 16 * c + d), rest2)
            | _, _, _, _ => none
          | _ => none
        else none
      match c? with
      | some (c, rest2) =>
        match parseJString fuel rest2 with
        | some (s, r) => some (⟨c :: s.data⟩, r)
        | none => none
      | none => none
    | c :: rest =>
      match parseJString fuel rest with
      | some (s, r) => some (⟨c :: s.data⟩, r)
      | none => none
    | [] => none

end

/-- JS builtin `JSON.parse` as a total function: `none` models a thrown
`SyntaxError` (including trailing garbage). -/
def jsonParseJS (s : String) : Option Value :=
  match parseJVal (s.data.length + 1) s.data with
  | some (v, r) => if skipWs r = [] then some v else none
  | none => none

/-! ## The compact codec (`port-manager.ts`) -/

/-- `u.startsWith(c)` for a single-character needle. -/
def jsStartsWith1 (u : String) (c : Char) : Bool :=
  u.data.head? = some c

/-- `u.endsWith(c)` for a single-character needle. -/
def jsEndsWith1 (u : String) (c : Char) : Bool :=
  u.data.getLast? = some c

/-- The JSON-shape test of `parseArgument`: starts with `{` and ends with
`}`, or starts with `[` and ends with `]`. -/
def jsonShaped (u : String) : Bool :=
  (jsStartsWith1 u '{' && jsEndsWith1 u '}') ||
  (jsStartsWith1 u '[' && jsEndsWith1 u ']')

/-- `parseArgument` from port-manager.ts: unescape, then try JSON shape,
then the numeric pattern, then the boolean/null/undefined literals, else
keep the string. -/
def parseArgument (arg : String) : Value :=
  let u := unescapeString arg
  if jsonShaped u then
    match jsonParseJS u with
    | some v => v
    | none => .str u
  else if numericPat u then .num (jsNumber u)
  else if u = "true" then .bool true
  else if u = "false" then .bool false
  else if u = "null" then .null
  else if u = "undefined" then .undefined
  else .str u

/-- The three AICF commands. -/
inductive AICFCommand where
  | CALL
  | LIST
  | INFO
deriving Repr, DecidableEq

/-- `AICFRequest` from port-manager.ts. -/
structure AICFRequest where
  command : AICFCommand
  tool : Option String := none
  arguments : Option (List Value) := none
deriving Repr

/-- The command dispatch of `parseAICFRequest`, on the upper-cased command
word and the remaining fields. -/
def parseCommand (command : String) (rest : List String) : Except String AICFRequest :=
  if command = "LIST" then .ok { command := .LIST }
  else if command = "INFO" then
    match rest with
    | [] => .error "INFO command requires tool name"
    | t :: _ => .ok { command := .INFO, tool := some (unescapeString t) }
  else if command = "CALL" then
    match rest with
    | [] => .error "CALL command requires tool name"
    | t :: args =>
      .ok { command := .CALL, tool := some (unescapeString t),
            arguments := some (args.map parseArgument) }
  else .error ("Invalid AICF command: " ++ command)

/-- `parseAICFRequest` from port-manager.ts.  A thrown `Error` is modelled
as `Except.error` carrying the message. -/
def parseAICFRequest (input : String) : Except String AICFRequest :=
  if input = "" then .error "Invalid AICF request: input must be a non-empty string"
  else
    match splitByPipe (jsTrim input) with
    | [] => .error "Invalid AICF request: empty input"
    | p0 :: rest => parseCommand (asciiUpper p0) rest

/-- `Array.prototype.join("|")`. -/
def joinPipe : List String → String
  | [] => ""
  | [x] => x
  | x :: xs => x ++ "|" ++ joinPipe xs

/-- The wire word of a command. -/
def commandName : AICFCommand → String
  | .CALL => "CALL"
  | .LIST => "LIST"
  | .INFO => "INFO"

/-- `serializeArgument` from port-manager.ts. -/
def serializeArgument : Value → String
  | .null => "null"
  | .undefined => "undefined"
  | .bool b => if b then "true" else "false"
  | .num q => ratToJSString q
  | .str s => escapeString s
  | .obj fs => escapeString ((stringifyV (.obj fs)).getD "")
  | .arr es => escapeString ((stringifyV (.arr es)).getD "")

/-- `serializeAICFRequest` from port-manager.ts.  `request.tool` is pushed
only when truthy (present and non-empty). -/
def serializeAICFRequest (r : AICFRequest) : String :=
  let parts := [commandName r.command]
  let parts := match r.tool with
    | some t => if t = "" then parts else parts ++ [escapeString t]
    | none => parts
  let parts := match r.arguments with
    | some args => if args.length > 0 then parts ++ args.map serializeArgument else parts
    | none => parts
  joinPipe parts

/-- `serializeData` from port-manager.ts. -/
def serializeData : Value → String
  | .null => ""
  | .undefined => ""
  | .str s => escapeString s
  | .num q => ratToJSString q
  | .bool b => if b then "true" else "false"
  | .obj fs => escapeString ((stringifyV (.obj fs)).getD "")
  | .arr es => escapeString ((stringifyV (.arr es)).getD "")

/-- The error half of `AICFResponse`. -/
structure AICFError where
  code : Int
  message : String
deriving Repr

/-- `AICFResponse` from port-manager.ts. -/
structure AICFResponse where
  success : Bool
  data : Option Value := none
  error : Option AICFError := none

/-- `createSuccessResponse` from port-manager.ts. -/
def createSuccessResponse (data : Value) : AICFResponse :=
  { success := true, data := some data }

/-- `createErrorResponse` from port-manager.ts. -/
def createErrorResponse (code : Int) (message : String) : AICFResponse :=
  { success := false, error := some { code, message } }

/-- `serializeAICFResponse` from port-manager.ts.  `error?.code || 500` and
`error?.message || "Unknown error"` use JS truthiness (a `0` code and an
empty message fall back). -/
def serializeAICFResponse (r : AICFResponse) : String :=
  if r.success then "OK|" ++ serializeData (r.data.getD .undefined)
  else
    let code : Int := match r.error with
      | some e => if e.code = 0 then 500 else e.code
      | none => 500
    let message := match r.error with
      | some e => if e.message = "" then "Unknown error" else e.message
      | none => "Unknown error"
    "ERR|" ++ (toString code ++ ("|" ++ escapeString message))

/-- `serializeToolList` from port-manager.ts. -/
def serializeToolList (tools : List String) : String :=
  "TOOLS|" ++ joinPipe (tools.map escapeString)

/-- `serializeToolInfo` from port-manager.ts. -/
def serializeToolInfo (name description : String) (args : List (String × String)) : String :=
  joinPipe ("TOOL" :: escapeString name :: escapeString description ::
    args.map (fun a => escapeString (a.1 ++ ":" ++ a.2)))

/-! ## The AIP server (`AIPServer.ts` and its compiled copy in the schema
bundle): registry, session store, JSON-RPC envelope, dispatcher -/

/-- Property access `v[k]` on a JS value: `undefined` for a missing key or a
non-object receiver (every dispatcher access is guarded by a truthiness
check, so the null/undefined receiver TypeError cannot fire). -/
def getFieldJS : Value → String → Value
  | .obj fs, k =>
    match fs.find? (fun p => p.1 = k) with
    | some p => p.2
    | none => .undefined
  | _, _ => .undefined

/-- JS falsiness. -/
def jsFalsy : Value → Bool
  | .undefined => true
  | .null => true
  | .bool b => !b
  | .num q => q = 0
  | .str s => s = ""
  | _ => false

/-- `v === lit` for a string literal `lit`. -/
def isStrEq (v : Value) (lit : String) : Bool :=
  match v with
  | .str s => s = lit
  | _ => false

/-- `typeof v === "string"`. -/
def isJsString : Value → Bool
  | .str _ => true
  | _ => false

/-- `typeof v === "number"`. -/
def isJsNumber : Value → Bool
  | .num _ => true
  | _ => false

/-- String interpolation `${v}` of a JS value (ToString). -/
def jsDisplay : Value → String
  | .str s => s
  | .num q => ratToJSString q
  | .bool b => if b then "true" else "false"
  | .null => "null"
  | .undefined => "undefined"
  | .obj _ => "[object Object]"
  | .arr es => joinComma (es.map (fun v => (stringifyV v).getD ""))

/-- An argument-schema entry: the declared `type` of one property (`none`
models an absent `type` field). -/
abbrev PropDecl := Option String

/-- The `schema` of a `ToolCapability`: an ordered record of properties and
an optional `required` list. -/
structure ToolSchema where
  properties : Option (List (String × PropDecl)) := none
  required : Option (List String) := none

/-- `ToolCapability` (the fields the dispatcher reads). -/
structure ToolCapability where
  name : String
  description : Option String := none
  schema : Option ToolSchema := none

/-- A tool handler: receives the named-argument object, returns a result or
throws (modelled as `Except.error` carrying the error message). -/
def ToolHandler := Value → Except String Value

/-- `ContextCapability` (the fields the dispatcher reads). -/
structure ContextCapability where
  name : String
  description : Option String := none

/-- A context supplier. -/
def ContextHandler := Unit → Except String Value

/-- A session record; the ISO `expires` string is modelled by its
epoch-millisecond value (`none` models a falsy/absent `expires`). -/
structure SessionInfo where
  id : String
  expires : Option Nat
deriving Repr, DecidableEq

/-- `AIPServerConfig`. -/
structure AIPServerConfig where
  name : String := "aip"
  version : String := "1.0.0"
  metadata : Option Value := none

/-- The `AIPServer` state: the two registries (JS `Map`s, modelled as
association lists in insertion order) and the session store. -/
structure AIPServer where
  config : AIPServerConfig := {}
  tools : List (String × ToolCapability × ToolHandler) := []
  contexts : List (String × ContextCapability × ContextHandler) := []
  sessions : List (String × SessionInfo) := []

/-- `this.tools.get(name)`. -/
def lookupTool (srv : AIPServer) (name : String) : Option (ToolCapability × ToolHandler) :=
  (srv.tools.find? (fun e => e.1 = name)).map (·.2)

/-- `this.contexts.get(name)`. -/
def lookupContext (srv : AIPServer) (name : String) : Option (ContextCapability × ContextHandler) :=
  (srv.contexts.find? (fun e => e.1 = name)).map (·.2)

/-- An `AIPError` (code, message, optional data) as raised by the error
classes in `errors.ts`. -/
structure AIPError where
  code : Int
  message : String
  data : Option Value := none
deriving Repr

/-- `ToolExecutionError` (code 1001): message
`Tool execution failed: <tool> - <cause>`. -/
def toolExecutionError (tool msg : String) (data : Option Value) : AIPError :=
  { code := 1001, message := "Tool execution failed: " ++ (tool ++ (" - " ++ msg)), data }

/-- `MethodNotFoundError` (code -32601). -/
def methodNotFoundError (m : String) : AIPError :=
  { code := -32601, message := "Method not found: " ++ m }

/-- `InvalidParamsError` (code -32602). -/
def invalidParamsError (msg : String) : AIPError :=
  { code := -32602, message := msg }

/-- `ContextNotAvailableError` (code 1002). -/
def contextNotAvailableError (ctx : String) (data : Option Value) : AIPError :=
  { code := 1002, message := "Context not available: " ++ ctx, data }

/-- The ambient effects `Date.now()` and `Math.random()` consumed by the
dispatcher, passed explicitly. -/
structure Env where
  nowMs : Nat
  rand : String

/-- `generateSessionId`. -/
def generateSessionId (env : Env) : String :=
  "session-" ++ toString env.nowMs ++ "-" ++ env.rand

/-- The session built by `handleHandshake`: expiry is a fixed 24-hour
horizon from creation. -/
def handshakeSession (env : Env) : SessionInfo :=
  { id := generateSessionId env, expires := some (env.nowMs + 24 * 60 * 60 * 1000) }

/-- `getServerInfo`. -/
def serverInfoValue (srv : AIPServer) : Value :=
  let caps := (if srv.tools.length > 0 then [Value.str "tool"] else []) ++
              (if srv.contexts.length > 0 then [Value.str "context"] else [])
  .obj [("name", .str srv.config.name), ("version", .str srv.config.version),
        ("capabilities", .arr caps), ("metadata", srv.config.metadata.getD .undefined)]

/-- A session as a response value. -/
def sessionValue (s : SessionInfo) : Value :=
  .obj [("id", .str s.id), ("expires", match s.expires with
    | some e => .num (e : Rat)
    | none => .undefined)]

/-- `handleHandshake`: create and store a session, return the handshake
payload and the updated server. -/
def handleHandshake (srv : AIPServer) (env : Env) : Value × AIPServer :=
  let session := handshakeSession env
  (.obj [("version", .str "1.0.0"), ("server", serverInfoValue srv),
         ("session", sessionValue session)],
   { srv with sessions := srv.sessions ++ [(session.id, session)] })

/-- A tool schema as a response value. -/
def schemaValue (s : ToolSchema) : Value :=
  .obj [("properties", match s.properties with
          | some props => .obj (props.map (fun p => (p.1, Value.obj [("type", p.2.elim .undefined .str)])))
          | none => .undefined),
        ("required", match s.required with
          | some rs => .arr (rs.map .str)
          | none => .undefined)]

/-- A tool capability as a response value. -/
def toolCapValue (c : ToolCapability) : Value :=
  .obj [("type", .str "tool"), ("name", .str c.name),
        ("description", c.description.elim .undefined .str),
        ("schema", c.schema.elim .undefined schemaValue)]

/-- A context capability as a response value. -/
def contextCapValue (c : ContextCapability) : Value :=
  .obj [("type", .str "context"), ("name", .str c.name),
        ("description", c.description.elim .undefined .str)]

/-- `getCapabilities`: all tool capabilities then all context capabilities,
in registration order. -/
def getCapabilities (srv : AIPServer) : List Value :=
  srv.tools.map (fun e => toolCapValue e.2.1) ++ srv.contexts.map (fun e => contextCapValue e.2.1)

/-- `handleCapabilitiesList`. -/
def capabilitiesListValue (srv : AIPServer) : Value :=
  .obj [("capabilities", .arr (getCapabilities srv))]

/-- `handleToolInvoke` (JSON-RPC path): look the tool up, await the handler
with `params.arguments` unchanged, wrap a thrown error as a
`ToolExecutionError`. -/
def handleToolInvoke (srv : AIPServer) (params : Value) : Except AIPError Value :=
  let tv := getFieldJS params "tool"
  let entry := match tv with
    | .str name => lookupTool srv name
    | _ => none
  match entry with
  | none => .error (toolExecutionError (jsDisplay tv) "Tool not found" none)
  | some (_, h) =>
    match h (getFieldJS params "arguments") with
    | .ok r => .ok r
    | .error m =>
      .error (toolExecutionError (jsDisplay tv) m (some (.obj [("originalError", .str m)])))

/-- `handleContextGet`. -/
def handleContextGet (srv : AIPServer) (params : Value) : Except AIPError Value :=
  let cv := getFieldJS params "context"
  let entry := match cv with
    | .str name => lookupContext srv name
    | _ => none
  match entry with
  | none => .error (contextNotAvailableError (jsDisplay cv) none)
  | some (_, h) =>
    match h () with
    | .ok r => .ok r
    | .error m =>
      .error (contextNotAvailableError (jsDisplay cv) (some (.obj [("originalError", .str m)])))

/-- The JSON-RPC error member. -/
structure JsonRpcErr where
  code : Int
  message : String
  data : Option Value := none
deriving Repr

/-- A JSON-RPC response (`jsonrpc: "2.0"` is implicit): exactly the shapes
`createJSONRPCResponse` and `createJSONRPCError` can build. -/
structure JSONRPCResponse where
  id : Value
  result : Option Value := none
  error : Option JsonRpcErr := none
deriving Repr

/-- `createJSONRPCResponse` from jsonrpc.ts. -/
def createJSONRPCResponse (id : Value) (result : Value) : JSONRPCResponse :=
  { id, result := some result }

/-- `createJSONRPCError` from jsonrpc.ts. -/
def createJSONRPCError (id : Value) (code : Int) (message : String)
    (data : Option Value) : JSONRPCResponse :=
  { id, error := some { code, message, data } }

/-- `validateJSONRPCRequest` from jsonrpc.ts: a non-null `typeof "object"`
value (arrays included — their named properties are simply absent) whose
`jsonrpc` is the literal `"2.0"`, whose `id` is a string or a number, and
whose `method` is a string (an empty string passes). -/
def validateJSONRPCRequest (v : Value) : Bool :=
  match v with
  | .obj _ | .arr _ =>
    isStrEq (getFieldJS v "jsonrpc") "2.0" &&
    (isJsString (getFieldJS v "id") || isJsNumber (getFieldJS v "id")) &&
    isJsString (getFieldJS v "method")
  | _ => false

/-- `(request as any)?.id ?? "unknown"`. -/
def idOrUnknown (v : Value) : Value :=
  match v with
  | .obj _ | .arr _ =>
    match getFieldJS v "id" with
    | .undefined => .str "unknown"
    | .null => .str "unknown"
    | x => x
  | _ => .str "unknown"

/-- `handleRequest` (JSON-RPC dispatch): validate, route by method, convert
every `AIPError` into an error response.  Returns the response and the
updated server (handshake is the only mutating branch). -/
def handleRequest (srv : AIPServer) (env : Env) (request : Value) :
    JSONRPCResponse × AIPServer :=
  if !validateJSONRPCRequest request then
    (createJSONRPCError (idOrUnknown request) (-32600) "Invalid JSON-RPC request" none, srv)
  else
    if isStrEq (getFieldJS request "method") "aip.handshake" then
      ((createJSONRPCResponse (getFieldJS request "id") (handleHandshake srv env).1),
       (handleHandshake srv env).2)
    else if isStrEq (getFieldJS request "method") "aip.capabilities.list" then
      (createJSONRPCResponse (getFieldJS request "id") (capabilitiesListValue srv), srv)
    else if isStrEq (getFieldJS request "method") "aip.tool.invoke" then
      if jsFalsy (getFieldJS request "params") then
        (createJSONRPCError (getFieldJS request "id") (-32602)
          "Missing params for tool invocation" none, srv)
      else
        match handleToolInvoke srv (getFieldJS request "params") with
        | .ok r => (createJSONRPCResponse (getFieldJS request "id") r, srv)
        | .error e =>
          (createJSONRPCError (getFieldJS request "id") e.code e.message e.data, srv)
    else if isStrEq (getFieldJS request "method") "aip.context.get" then
      if jsFalsy (getFieldJS request "params") then
        (createJSONRPCError (getFieldJS request "id") (-32602)
          "Missing params for context get" none, srv)
      else
        match handleContextGet srv (getFieldJS request "params") with
        | .ok r => (createJSONRPCResponse (getFieldJS request "id") r, srv)
        | .error e =>
          (createJSONRPCError (getFieldJS request "id") e.code e.message e.data, srv)
    else
      (createJSONRPCError (getFieldJS request "id") (-32601)
        ("Method not found: " ++ jsDisplay (getFieldJS request "method")) none, srv)

/-- `typeof v === "object" && !Array.isArray(v)` — note `null` passes the
`typeof` test in JS. -/
def isJsObjectNotArray : Value → Bool
  | .obj _ => true
  | .null => true
  | _ => false

/-- Assignment `r[k] = v` on a JS object: overwrite in place if the key
exists, else append. -/
def jsObjSet (fs : List (String × Value)) (k : String) (v : Value) :
    List (String × Value) :=
  if fs.any (fun p => p.1 = k) then
    fs.map (fun p => if p.1 = k then (k, v) else p)
  else fs ++ [(k, v)]

/-- `convertArrayToObject`: positional-to-named mapping.  With no schema
properties: a single object argument passes through, anything else becomes
`{}`.  With properties: `result[propNames[i]] = args[i]` for
`i < min(args.length, propNames.length)`. -/
def convertArrayToObject (args : List Value) (schema : Option ToolSchema) : Value :=
  match schema.bind (·.properties) with
  | none =>
    match args with
    | [a] => if isJsObjectNotArray a then a else .obj []
    | _ => .obj []
  | some props =>
    let propNames := props.map (·.1)
    .obj ((propNames.zip args).foldl (fun r kv => jsObjSet r kv.1 kv.2) [])

/-- The `type || "any"` rendering of a declared property type. -/
def propTypeName (t : PropDecl) : String :=
  match t with
  | some s => if s = "" then "any" else s
  | none => "any"

/-- The `INFO` case of `handleAICFRequest`: a falsy (absent or empty) tool
name is a 400, an unknown tool a 404, otherwise the `TOOL|…` info line
derived from the declared schema properties in order. -/
def handleInfoCommand (srv : AIPServer) (tool : Option String) : String :=
  match tool with
  | none => serializeAICFResponse (createErrorResponse 400 "Missing tool name")
  | some t =>
    if t = "" then serializeAICFResponse (createErrorResponse 400 "Missing tool name")
    else
      match lookupTool srv t with
      | none => serializeAICFResponse (createErrorResponse 404 ("Tool not found: " ++ t))
      | some (cap, _) =>
        serializeToolInfo cap.name (cap.description.getD "")
          (match cap.schema.bind (·.properties) with
           | some props => props.map (fun p => (p.1, propTypeName p.2))
           | none => [])

/-- The `CALL` case of `handleAICFRequest`: falsy tool name → 400, unknown
tool → 404, else map positional arguments through `convertArrayToObject`,
await the handler, and wrap its result or its thrown error. -/
def handleCallCommand (srv : AIPServer) (tool : Option String)
    (arguments : Option (List Value)) : String :=
  match tool with
  | none => serializeAICFResponse (createErrorResponse 400 "Missing tool name")
  | some t =>
    if t = "" then serializeAICFResponse (createErrorResponse 400 "Missing tool name")
    else
      match lookupTool srv t with
      | none => serializeAICFResponse (createErrorResponse 404 ("Tool not found: " ++ t))
      | some (cap, h) =>
        match h (convertArrayToObject (arguments.getD []) cap.schema) with
        | .ok result => serializeAICFResponse (createSuccessResponse result)
        | .error m => serializeAICFResponse (createErrorResponse 500 m)

/-- `handleAICFRequest`: parse, route by command, convert every failure
(parse error, missing name, unknown tool, handler throw) into an `ERR|…`
line. -/
def handleAICFRequest (srv : AIPServer) (input : String) : String :=
  match parseAICFRequest input with
  | .error msg => serializeAICFResponse (createErrorResponse 400 msg)
  | .ok req =>
    match req.command with
    | .LIST => serializeToolList (srv.tools.map (·.1))
    | .INFO => handleInfoCommand srv req.tool
    | .CALL => handleCallCommand srv req.tool req.arguments

/-- `cleanupSessions`: delete every stored session whose `expires` is truthy
and parses to a time strictly before `nowMs`. -/
def cleanupSessions (srv : AIPServer) (nowMs : Nat) : AIPServer :=
  { srv with sessions := srv.sessions.filter (fun p =>
      !(match p.2.expires with
        | some e => decide (e < nowMs)
        | none => false)) }

/-! ## The splitter as the specification states it

The spec (§4.1, §9 and claim C2) describes the splitter as a left-to-right
Normal/Escaped state machine: `\` consumes exactly the next character
verbatim, an unescaped `|` is a field boundary, and a trailing unescaped `|`
yields one extra empty field.  `splitSpecGo` is written from those words (a
trailing lone `\`, on which the spec is silent, is dropped as the source
does); it is compared with the source-translated `splitByPipe`. -/
def splitSpecGo : List Char → List Char → List (List Char)
  | '\\' :: c :: rest, acc => splitSpecGo rest (acc ++ [c])
  | ['\\'], acc => if acc ≠ [] then [acc] else []
  | '|' :: rest, acc => acc :: (if rest = [] then [[]] else splitSpecGo rest [])
  | c :: rest, acc => splitSpecGo rest (acc ++ [c])
  | [], acc => if acc ≠ [] then [acc] else []

/-- The specification splitter on strings. -/
def splitSpec (s : String) : List String :=
  (splitSpecGo s.data []).map (fun l => ⟨l⟩)

theorem splitLoop_assemble : ∀ cs acc parts,
    (let r := splitLoop cs parts acc false
     if r.2 ≠ [] ∨ cs.getLast? = some '|' then r.1 ++ [r.2] else r.1)
    = parts ++ splitSpecGo cs acc := by
  intro cs acc
  induction cs, acc using splitSpecGo.induct with
  | case1 c rest acc ih =>
    intro parts
    cases rest with
    | nil => simp [splitLoop, splitSpecGo]
    | cons r0 rs =>
      have h1 : ('\\' :: c :: r0 :: rs).getLast? = (r0 :: rs).getLast? := by
        simp [List.getLast?_cons_cons]
      simp only [splitLoop, if_true, if_false, Bool.false_eq_true, ite_false, ite_true, h1]
      simpa [splitLoop, splitSpecGo] using ih parts
  | case2 acc h =>
    intro parts
    simp [splitLoop, splitSpecGo, h]
  | case3 acc h =>
    intro parts
    simp at h
    simp [splitLoop, splitSpecGo, h]
  | case4 rest acc ih =>
    intro parts
    cases rest with
    | nil => simp [splitLoop, splitSpecGo]
    | cons r0 rs =>
      have h1 : ('|' :: r0 :: rs).getLast? = (r0 :: rs).getLast? := by
        simp [List.getLast?_cons_cons]
      simp only [splitLoop, if_true, if_false, ite_false, ite_true, h1]
      simpa [splitLoop, splitSpecGo] using ih (parts ++ [acc])
  | case5 c rest acc hne1 hne2 hne3 ih =>
    intro parts
    have hc1 : c ≠ '\\' := by
      cases rest with
      | nil => exact fun h => hne2 h rfl
      | cons d t => exact fun h => hne1 d t h rfl
    have hc2 : c ≠ '|' := fun h => hne3 h
    cases rest with
    | nil => simp [splitLoop, splitSpecGo, hc1, hc2]
    | cons r0 rs =>
      have h1 : (c :: r0 :: rs).getLast? = (r0 :: rs).getLast? := by
        simp [List.getLast?_cons_cons]
      simp only [splitLoop, hc1, hc2, if_false, ite_false, ite_true, h1]
      simpa [splitLoop, splitSpecGo, hc1, hc2] using ih parts
  | case6 acc h =>
    intro parts
    simp [splitLoop, splitSpecGo, h]
  | case7 acc h =>
    intro parts
    simp at h
    simp [splitLoop, splitSpecGo, h]

theorem splitByPipe_eq_splitSpec (s : String) : splitByPipe s = splitSpec s := by
  unfold splitByPipe splitSpec splitByPipeL
  have h := splitLoop_assemble s.data [] []
  simp only [List.nil_append] at h
  rw [h]

/-! ## `escapeString` / `unescapeString` as an inverse pair

On backslash-free fields `escapeString` followed by `unescapeString` is the
identity; the chain of lemmas below tracks the four sequential replaces. -/

theorem replace2_cons_ne {p1 : Char} (p2 : Char) (rep : List Char) {c : Char}
    (l : List Char) (h : c ≠ p1) :
    replace2 p1 p2 rep (c :: l) = c :: replace2 p1 p2 rep l := by
  cases l with
  | nil => rfl
  | cons d t => simp [replace2, h]

theorem replace2_cons2_match (p1 p2 : Char) (rep l : List Char) :
    replace2 p1 p2 rep (p1 :: p2 :: l) = rep ++ replace2 p1 p2 rep l := by
  simp [replace2]

theorem replace2_cons2_nomatch {p1 p2 c1 c2 : Char} (rep l : List Char)
    (h : ¬(c1 = p1 ∧ c2 = p2)) :
    replace2 p1 p2 rep (c1 :: c2 :: l) = c1 :: replace2 p1 p2 rep (c2 :: l) := by
  simp only [replace2, if_neg h]

/-- The per-character encoding `escapeString` performs on a backslash-free
input. -/
def escMap (c : Char) : List Char :=
  if c = '|' then ['\\', '|']
  else if c = '\n' then ['\\', 'n']
  else if c = '\t' then ['\\', 't']
  else [c]

/-- `escMap` after the `\n`-unescape pass. -/
def escMap1 (c : Char) : List Char :=
  if c = '|' then ['\\', '|']
  else if c = '\t' then ['\\', 't']
  else [c]

/-- `escMap1` after the `\t`-unescape pass. -/
def escMap2 (c : Char) : List Char :=
  if c = '|' then ['\\', '|']
  else [c]

theorem replace1_append (p : Char) (rep l1 l2 : List Char) :
    replace1 p rep (l1 ++ l2) = replace1 p rep l1 ++ replace1 p rep l2 := by
  induction l1 with
  | nil => rfl
  | cons c t ih => simp [replace1, ih]

theorem escapeL_flatMap (cs : List Char) (h : '\\' ∉ cs) :
    replace1 '\t' ['\\', 't'] (replace1 '\n' ['\\', 'n']
      (replace1 '|' ['\\', '|'] (replace1 '\\' ['\\', '\\'] cs)))
    = cs.flatMap escMap := by
  induction cs with
  | nil => rfl
  | cons c rest ih =>
    have hc : c ≠ '\\' := by
      intro hc
      exact h (hc ▸ List.mem_cons_self c rest)
    have hrest : '\\' ∉ rest := fun hm => h (List.mem_cons_of_mem c hm)
    simp only [replace1, if_neg hc, List.singleton_append, List.flatMap_cons]
    by_cases h1 : c = '|'
    · subst h1
      simp [replace1, escMap, ih hrest]
    · by_cases h2 : c = '\n'
      · subst h2
        simp [replace1, escMap, ih hrest]
      · by_cases h3 : c = '\t'
        · subst h3
          simp [replace1, escMap, ih hrest]
        · simp [replace1, escMap, h1, h2, h3, ih hrest]

theorem escMap_other {c : Char} (h1 : c ≠ '|') (h2 : c ≠ '\n') (h3 : c ≠ '\t') :
    escMap c = [c] := by
  simp [escMap, h1, h2, h3]

theorem escMap1_other {c : Char} (h1 : c ≠ '|') (h3 : c ≠ '\t') :
    escMap1 c = [c] := by
  simp [escMap1, h1, h3]

theorem escMap2_other {c : Char} (h1 : c ≠ '|') : escMap2 c = [c] := by
  simp [escMap2, h1]

theorem unescapeN_flatMap (cs : List Char) (h : '\\' ∉ cs) :
    replace2 '\\' 'n' ['\n'] (cs.flatMap escMap) = cs.flatMap escMap1 := by
  induction cs with
  | nil => rfl
  | cons c rest ih =>
    have hc : c ≠ '\\' := fun hc => h (hc ▸ List.mem_cons_self c rest)
    have hrest : '\\' ∉ rest := fun hm => h (List.mem_cons_of_mem c hm)
    rw [List.flatMap_cons, List.flatMap_cons]
    by_cases h1 : c = '|'
    · subst h1
      show replace2 '\\' 'n' ['\n'] ('\\' :: '|' :: rest.flatMap escMap) =
        '\\' :: '|' :: rest.flatMap escMap1
      rw [replace2_cons2_nomatch _ _ (by decide),
        replace2_cons_ne _ _ _ (by decide : ('|' : Char) ≠ '\\'), ih hrest]
    · by_cases h2 : c = '\n'
      · subst h2
        show replace2 '\\' 'n' ['\n'] ('\\' :: 'n' :: rest.flatMap escMap) =
          '\n' :: rest.flatMap escMap1
        rw [replace2_cons2_match, ih hrest]
        rfl
      · by_cases h3 : c = '\t'
        · subst h3
          show replace2 '\\' 'n' ['\n'] ('\\' :: 't' :: rest.flatMap escMap) =
            '\\' :: 't' :: rest.flatMap escMap1
          rw [replace2_cons2_nomatch _ _ (by decide),
            replace2_cons_ne _ _ _ (by decide : ('t' : Char) ≠ '\\'), ih hrest]
        · rw [escMap_other h1 h2 h3, escMap1_other h1 h3, List.singleton_append,
            List.singleton_append, replace2_cons_ne _ _ _ hc, ih hrest]

theorem unescapeT_flatMap (cs : List Char) (h : '\\' ∉ cs) :
    replace2 '\\' 't' ['\t'] (cs.flatMap escMap1) = cs.flatMap escMap2 := by
  induction cs with
  | nil => rfl
  | cons c rest ih =>
    have hc : c ≠ '\\' := fun hc => h (hc ▸ List.mem_cons_self c rest)
    have hrest : '\\' ∉ rest := fun hm => h (List.mem_cons_of_mem c hm)
    rw [List.flatMap_cons, List.flatMap_cons]
    by_cases h1 : c = '|'
    · subst h1
      show replace2 '\\' 't' ['\t'] ('\\' :: '|' :: rest.flatMap escMap1) =
        '\\' :: '|' :: rest.flatMap escMap2
      rw [replace2_cons2_nomatch _ _ (by decide),
        replace2_cons_ne _ _ _ (by decide : ('|' : Char) ≠ '\\'), ih hrest]
    · by_cases h3 : c = '\t'
      · subst h3
        show replace2 '\\' 't' ['\t'] ('\\' :: 't' :: rest.flatMap escMap1) =
          '\t' :: rest.flatMap escMap2
        rw [replace2_cons2_match, ih hrest]
        rfl
      · rw [escMap1_other h1 h3, escMap2_other h1, List.singleton_append,
          List.singleton_append, replace2_cons_ne _ _ _ hc, ih hrest]

theorem unescapeP_flatMap (cs : List Char) (h : '\\' ∉ cs) :
    replace2 '\\' '|' ['|'] (cs.flatMap escMap2) = cs := by
  induction cs with
  | nil => rfl
  | cons c rest ih =>
    have hc : c ≠ '\\' := fun hc => h (hc ▸ List.mem_cons_self c rest)
    have hrest : '\\' ∉ rest := fun hm => h (List.mem_cons_of_mem c hm)
    rw [List.flatMap_cons]
    by_cases h1 : c = '|'
    · subst h1
      show replace2 '\\' '|' ['|'] ('\\' :: '|' :: rest.flatMap escMap2) = '|' :: rest
      rw [replace2_cons2_match, ih hrest]
      rfl
    · rw [escMap2_other h1, List.singleton_append, replace2_cons_ne _ _ _ hc, ih hrest]

theorem unescapeB_id (cs : List Char) (h : '\\' ∉ cs) :
    replace2 '\\' '\\' ['\\'] cs = cs := by
  induction cs with
  | nil => rfl
  | cons c rest ih =>
    have hc : c ≠ '\\' := by
      intro hc
      exact h (hc ▸ List.mem_cons_self c rest)
    have hrest : '\\' ∉ rest := fun hm => h (List.mem_cons_of_mem c hm)
    rw [replace2_cons_ne _ _ _ hc, ih hrest]

theorem unescape_escape_of_no_backslash (s : String) (h : '\\' ∉ s.data) :
    unescapeString (escapeString s) = s := by
  show (⟨replace2 '\\' '\\' ['\\'] (replace2 '\\' '|' ['|'] (replace2 '\\' 't' ['\t']
      (replace2 '\\' 'n' ['\n'] (replace1 '\t' ['\\', 't'] (replace1 '\n' ['\\', 'n']
      (replace1 '|' ['\\', '|'] (replace1 '\\' ['\\', '\\'] s.data)))))))⟩ : String) = s
  rw [escapeL_flatMap s.data h, unescapeN_flatMap s.data h, unescapeT_flatMap s.data h,
    unescapeP_flatMap s.data h, unescapeB_id s.data h]

/-! ## The claims -/

/-- **C1.** The claim states that decode→re-encode of every valid CALL
string round-trips to the original exactly (bijective escaping).  The code
refutes it: the repository's own round-trip test input
`CALL|figma.getFile|abc123|1.0` (aicf-rpc.test.ts) decodes the field `1.0`
to the number 1 and re-encodes it as `1`; and the argument field `a\nb`
loses its escape (`splitByPipe` strips the introducer and the argument is
unescaped a second time), re-encoding as `anb`. -/
theorem c1_roundtrip_fails_on_own_test_input :
    parseAICFRequest "CALL|figma.getFile|abc123|1.0" =
      .ok { command := .CALL, tool := some "figma.getFile",
            arguments := some [.str "abc123", .num 1] } ∧
    serializeAICFRequest
      { command := .CALL, tool := some "figma.getFile",
        arguments := some [.str "abc123", .num 1] } =
      "CALL|figma.getFile|abc123|1" ∧
    ("CALL|figma.getFile|abc123|1" : String) ≠ "CALL|figma.getFile|abc123|1.0" ∧
    parseAICFRequest "CALL|t|a\\nb" =
      .ok { command := .CALL, tool := some "t", arguments := some [.str "anb"] } ∧
    serializeAICFRequest
      { command := .CALL, tool := some "t", arguments := some [.str "anb"] } =
      "CALL|t|anb" ∧
    ("CALL|t|anb" : String) ≠ "CALL|t|a\\nb" :=
  ⟨rfl, rfl, by decide, rfl, rfl, by decide⟩

/-- **C2 (counterexample).** The claim says that in the decode direction of
a request field `\n` becomes a newline, and that `escapeString` is the exact
inverse of the decode.  Neither holds: the CALL argument field `\n` decodes
to the one-character string `n` (the splitter already consumed the
introducer before `unescapeString` ran again), and
`unescapeString (escapeString s)` differs from `s` at `s = "\n"`-as-source,
i.e. the two-character string backslash-n. -/
theorem c2_field_decode_counterexample :
    parseAICFRequest "CALL|t|\\n" =
      .ok { command := .CALL, tool := some "t", arguments := some [.str "n"] } ∧
    unescapeString (escapeString "\\n") = "\\\n" ∧
    ("\\\n" : String) ≠ "\\n" :=
  ⟨rfl, rfl, by decide⟩

/-- **C2 (amended).** The splitter clause holds exactly as stated:
`splitByPipe` is equivalent to the left-to-right Normal/Escaped state
machine that treats `\` as consuming the next character verbatim and
unescaped `|` as a field boundary.  The four escape mappings hold for
`unescapeString` applied to an isolated raw field, and `escapeString` is an
inverse of `unescapeString` on backslash-free fields; it is not an exact
inverse in general, because the composite request decode strips escapes
twice. -/
theorem c2_splitter_state_machine_and_escapes :
    (∀ s : String, splitByPipe s = splitSpec s) ∧
    (unescapeString "\\\\" = "\\" ∧ unescapeString "\\|" = "|" ∧
     unescapeString "\\n" = "\n" ∧ unescapeString "\\t" = "\t") ∧
    (∀ s : String, '\\' ∉ s.data → unescapeString (escapeString s) = s) :=
  ⟨splitByPipe_eq_splitSpec, ⟨rfl, rfl, rfl, rfl⟩, unescape_escape_of_no_backslash⟩

/-- Witness for the amended C2, at the pipe-escaped field `a|b`. -/
theorem c2_splitter_state_machine_and_escapes_witness :
    unescapeString (escapeString "a|b") = "a|b" :=
  c2_splitter_state_machine_and_escapes.2.2 "a|b" (by decide)

/-- **C10.** `parseAICFRequest` is case-insensitive in the command field:
two inputs whose pipe-splits agree except for the letter case of the first
field parse identically, because the parser upper-cases the command before
comparing; in particular `list` and `call|tool|x` parse as their uppercase
spellings. -/
theorem c10_command_case_insensitive (s₁ s₂ h₁ h₂ : String) (t : List String)
    (hs₁ : s₁ ≠ "") (hs₂ : s₂ ≠ "")
    (hsp₁ : splitByPipe (jsTrim s₁) = h₁ :: t)
    (hsp₂ : splitByPipe (jsTrim s₂) = h₂ :: t)
    (hup : asciiUpper h₁ = asciiUpper h₂) :
    parseAICFRequest s₁ = parseAICFRequest s₂ := by
  unfold parseAICFRequest
  rw [if_neg hs₁, if_neg hs₂, hsp₁, hsp₂]
  show parseCommand (asciiUpper h₁) t = parseCommand (asciiUpper h₂) t
  rw [hup]

/-- **C7 (counterexample).** The claim says validation requires a non-empty
method.  The code only checks `typeof method === "string"`: the request
`{jsonrpc:"2.0", id:1, method:""}` is accepted by `validateJSONRPCRequest`
and proceeds to dispatch, answering "method not found" rather than the
invalid-request failure the claim requires. -/
theorem c7_empty_method_accepted :
    validateJSONRPCRequest
      (.obj [("jsonrpc", .str "2.0"), ("id", .num 1), ("method", .str "")]) = true ∧
    (handleRequest {} ⟨0, ""⟩
      (.obj [("jsonrpc", .str "2.0"), ("id", .num 1), ("method", .str "")])).1 =
      createJSONRPCError (.num 1) (-32601) "Method not found: " none :=
  ⟨rfl, rfl⟩

theorem isStrEq_eq_true_iff (v : Value) (l : String) :
    isStrEq v l = true ↔ v = .str l := by
  cases v <;> simp [isStrEq]

theorem isJsString_eq_true_iff (v : Value) :
    isJsString v = true ↔ ∃ s, v = .str s := by
  cases v <;> simp [isJsString]

theorem isJsNumber_eq_true_iff (v : Value) :
    isJsNumber v = true ↔ ∃ q, v = .num q := by
  cases v <;> simp [isJsNumber]

/-- **C7 (amended).** JSON-RPC decode validation accepts a request exactly
when it is a non-null object (arrays included, though their named
properties are absent), its `jsonrpc` tag is the literal `"2.0"`, its `id`
is present and a string or a number, and its `method` is a string — the
empty string included; any violation makes `handleRequest` reply with the
invalid-request failure rather than throwing or dispatching. -/
theorem c7_validation_accepts_exactly :
    (∀ v : Value, validateJSONRPCRequest v = true ↔
      ((∃ fs, v = .obj fs) ∨ (∃ es, v = .arr es)) ∧
      getFieldJS v "jsonrpc" = .str "2.0" ∧
      ((∃ s, getFieldJS v "id" = .str s) ∨ (∃ q, getFieldJS v "id" = .num q)) ∧
      (∃ m, getFieldJS v "method" = .str m)) ∧
    (∀ (srv : AIPServer) (env : Env) (v : Value),
      validateJSONRPCRequest v = false →
      (handleRequest srv env v).1 =
        createJSONRPCError (idOrUnknown v) (-32600) "Invalid JSON-RPC request" none) := by
  constructor
  · intro v
    cases v <;>
      simp [validateJSONRPCRequest, isStrEq_eq_true_iff, isJsString_eq_true_iff,
        isJsNumber_eq_true_iff] <;>
      tauto
  · intro srv env v hv
    unfold handleRequest
    rw [hv]
    rfl

/-- Witness for the amended C7: a string request is rejected with the
invalid-request failure. -/
theorem c7_validation_accepts_exactly_witness :
    (handleRequest {} ⟨0, ""⟩ (.str "nope")).1 =
      createJSONRPCError (.str "unknown") (-32600) "Invalid JSON-RPC request" none :=
  c7_validation_accepts_exactly.2 {} ⟨0, ""⟩ (.str "nope") (by decide)

/-- **C8.** The claim (and §5 of the spec, and the `timeout?: number` field
that `ToolInvokeRequest` itself declares) promises a per-invocation timeout
bound.  The dispatcher never reads `params.timeout`: the invocation result
is identical whatever the timeout field holds, there is no
`setTimeout`/`Promise.race` in either dispatch path, and a never-resolving
handler is awaited forever. -/
theorem c8_timeout_hint_ignored (srv : AIPServer) (t : Value)
    (fs : List (String × Value)) :
    handleToolInvoke srv (.obj (("timeout", t) :: fs)) =
      handleToolInvoke srv (.obj fs) := by
  unfold handleToolInvoke
  simp [getFieldJS, List.find?]

/-- **C9.** The cleanup sweep removes exactly the expired sessions: a
handshake-created record (its expiry is always present: creation time plus
the fixed 24-hour horizon) survives `cleanupSessions` at time `now` iff it
was stored and its expiry is not in the past. -/
theorem c9_cleanup_removes_exactly_expired :
    (∀ env : Env, (handshakeSession env).expires = some (env.nowMs + 24 * 60 * 60 * 1000)) ∧
    (∀ (st : AIPServer) (now : Nat) (sid : String) (s : SessionInfo) (e : Nat),
      s.expires = some e →
      ((sid, s) ∈ (cleanupSessions st now).sessions ↔
        ((sid, s) ∈ st.sessions ∧ ¬ e < now))) := by
  constructor
  · intro env
    rfl
  · intro st now sid s e hexp
    simp [cleanupSessions, List.mem_filter, hexp]

/-- Witness for C9 at a concrete store and clock: at time 50, the session
expiring at 100 survives and the session expiring at 10 is removed. -/
theorem c9_cleanup_removes_exactly_expired_witness :
    (("b", (⟨"b", some 100⟩ : SessionInfo)) ∈
      (cleanupSessions ⟨{}, [], [], [("a", ⟨"a", some 10⟩), ("b", ⟨"b", some 100⟩)]⟩ 50).sessions) ∧
    ¬ (("a", (⟨"a", some 10⟩ : SessionInfo)) ∈
      (cleanupSessions ⟨{}, [], [], [("a", ⟨"a", some 10⟩), ("b", ⟨"b", some 100⟩)]⟩ 50).sessions) := by
  constructor
  · exact (c9_cleanup_removes_exactly_expired.2 _ 50 "b" ⟨"b", some 100⟩ 100 rfl).mpr
      ⟨by decide, by decide⟩
  · intro hmem
    exact ((c9_cleanup_removes_exactly_expired.2 _ 50 "a" ⟨"a", some 10⟩ 10 rfl).mp hmem).2
      (by decide)

theorem foldl_jsObjSet_append (l acc : List (String × Value))
    (h : ((acc ++ l).map Prod.fst).Nodup) :
    l.foldl (fun r kv => jsObjSet r kv.1 kv.2) acc = acc ++ l := by
  induction l generalizing acc with
  | nil => simp
  | cons kv rest ih =>
    obtain ⟨k, v⟩ := kv
    have hk : ¬ acc.any (fun p => p.1 = k) := by
      simp only [List.map_append, List.map_cons, List.nodup_append] at h
      intro hany
      rcases List.any_eq_true.mp hany with ⟨p, hp, hpk⟩
      have hpk2 : p.1 = k := by simpa using hpk
      exact h.2.2 (List.mem_map_of_mem Prod.fst hp) (by simp [hpk2])
    rw [List.foldl_cons]
    show List.foldl (fun r kv => jsObjSet r kv.1 kv.2) (jsObjSet acc k v) rest = acc ++ (k, v) :: rest
    rw [jsObjSet, if_neg hk, ih (acc ++ [(k, v)]) (by simpa using h)]
    simp

theorem map_fst_zip_eq_take : ∀ (l₁ : List String) (l₂ : List Value),
    (l₁.zip l₂).map Prod.fst = l₁.take l₂.length
  | [], _ => by simp
  | _ :: _, [] => by simp
  | a :: l₁, b :: l₂ => by simp [map_fst_zip_eq_take l₁ l₂]

theorem find?_zip_eq : ∀ (names : List String) (args : List Value), names.Nodup →
    ∀ i (h1 : i < names.length) (h2 : i < args.length),
    (names.zip args).find? (fun p => p.1 = names.get ⟨i, h1⟩) =
      some (names.get ⟨i, h1⟩, args.get ⟨i, h2⟩) := by
  intro names
  induction names with
  | nil =>
    intro args _ i h1
    simp at h1
  | cons n ns ih =>
    intro args hnd i h1 h2
    cases args with
    | nil => simp at h2
    | cons a as =>
      cases i with
      | zero => simp [List.find?]
      | succ j =>
        have hn : n ∉ ns := (List.nodup_cons.mp hnd).1
        have hget : (n :: ns).get ⟨j + 1, h1⟩ = ns.get ⟨j, by simpa using h1⟩ := rfl
        have hne : ¬ n = ns.get ⟨j, by simpa using h1⟩ :=
          fun he => hn (he ▸ ns.get_mem _ _)
        rw [hget, List.zip_cons_cons, List.find?_cons_of_neg _ (by simpa using hne)]
        exact ih as (List.nodup_cons.mp hnd).2 j (by simpa using h1) (by simpa using h2)

theorem find?_zip_none : ∀ (names : List String) (args : List Value), names.Nodup →
    ∀ j (h1 : j < names.length), args.length ≤ j →
    (names.zip args).find? (fun p => p.1 = names.get ⟨j, h1⟩) = none := by
  intro names
  induction names with
  | nil =>
    intro args _ j h1
    simp at h1
  | cons n ns ih =>
    intro args hnd j h1 hle
    cases args with
    | nil => simp
    | cons a as =>
      cases j with
      | zero => simp at hle
      | succ j' =>
        have hn : n ∉ ns := (List.nodup_cons.mp hnd).1
        have hget : (n :: ns).get ⟨j' + 1, h1⟩ = ns.get ⟨j', by simpa using h1⟩ := rfl
        have hne : ¬ n = ns.get ⟨j', by simpa using h1⟩ :=
          fun he => hn (he ▸ ns.get_mem _ _)
        rw [hget, List.zip_cons_cons, List.find?_cons_of_neg _ (by simpa using hne)]
        exact ih as (List.nodup_cons.mp hnd).2 j' (by simpa using h1) (by simpa using hle)

/-- **C4.** For a tool whose descriptor declares schema properties in a
fixed order (distinct names, as JS object keys are), invoking with a
positional list maps `args[i]` to the i-th property name for every
`i < min(args.length, props.length)`, and every property at index ≥
`args.length` is entirely absent from the mapping — its key does not occur
at all, so it is neither `null` nor the empty string, and no error is
raised. -/
theorem c4_positional_to_named (props : List (String × PropDecl)) (args : List Value)
    (req : Option (List String)) (hnd : (props.map Prod.fst).Nodup) :
    convertArrayToObject args (some { properties := some props, required := req }) =
      .obj ((props.map Prod.fst).zip args) ∧
    (∀ i (h1 : i < props.length) (h2 : i < args.length),
      getFieldJS (convertArrayToObject args (some { properties := some props, required := req }))
        ((props.map Prod.fst).get ⟨i, by simpa using h1⟩) = args.get ⟨i, h2⟩) ∧
    (∀ j (h1 : j < props.length), args.length ≤ j →
      ((props.map Prod.fst).get ⟨j, by simpa using h1⟩) ∉
        (((props.map Prod.fst).zip args).map Prod.fst)) := by
  have hkeys : (((props.map Prod.fst).zip args).map Prod.fst).Nodup := by
    rw [map_fst_zip_eq_take]
    exact hnd.sublist (List.take_sublist _ _)
  have hobj : convertArrayToObject args (some { properties := some props, required := req }) =
      .obj ((props.map Prod.fst).zip args) := by
    show Value.obj (((props.map Prod.fst).zip args).foldl (fun r kv => jsObjSet r kv.1 kv.2) []) =
      .obj ((props.map Prod.fst).zip args)
    rw [foldl_jsObjSet_append _ [] (by simpa using hkeys)]
    rfl
  refine ⟨hobj, ?_, ?_⟩
  · intro i h1 h2
    rw [hobj]
    show (match ((props.map Prod.fst).zip args).find?
        (fun p => p.1 = (props.map Prod.fst).get ⟨i, by simpa using h1⟩) with
      | some p => p.2
      | none => Value.undefined) = args.get ⟨i, h2⟩
    rw [find?_zip_eq (props.map Prod.fst) args hnd i (by simpa using h1) h2]
  · intro j h1 hle hmem
    rcases List.mem_map.mp hmem with ⟨p, hp, hpk⟩
    have hnone := List.find?_eq_none.mp
      (find?_zip_none (props.map Prod.fst) args hnd j (by simpa using h1) hle) p hp
    simp [hpk] at hnone

/-- Witness for C4: schema `[msg, count, flag]` with two positional
arguments maps `msg`/`count` and leaves `flag` entirely absent. -/
theorem c4_positional_to_named_witness :
    getFieldJS (convertArrayToObject [.str "hello", .num 42]
        (some { properties := some [("msg", some "string"), ("count", some "number"),
                                    ("flag", some "boolean")], required := none }))
      "msg" = .str "hello" ∧
    ("flag" : String) ∉
      ((([("msg", some "string"), ("count", some "number"),
          ("flag", some "boolean")] : List (String × PropDecl)).map Prod.fst).zip
        [Value.str "hello", Value.num 42]).map Prod.fst := by
  constructor
  · exact (c4_positional_to_named
      [("msg", some "string"), ("count", some "number"), ("flag", some "boolean")]
      [.str "hello", .num 42] none (by decide)).2.1 0 (by decide) (by decide)
  · exact (c4_positional_to_named
      [("msg", some "string"), ("count", some "number"), ("flag", some "boolean")]
      [.str "hello", .num 42] none (by decide)).2.2 2 (by decide) (by decide)

theorem tool_not_found_msg_ne_empty (t : String) : "Tool not found: " ++ t ≠ "" := by
  intro h
  have h2 : "Tool not found: ".data ++ t.data = [] := congrArg String.data h
  simp at h2

theorem serialize_tool_not_found (t : String) :
    serializeAICFResponse (createErrorResponse 404 ("Tool not found: " ++ t)) =
      "ERR|404|" ++ escapeString ("Tool not found: " ++ t) := by
  unfold serializeAICFResponse createErrorResponse
  simp only [if_neg (by decide : ¬(404 : Int) = 0),
    if_neg (tool_not_found_msg_ne_empty t)]
  rfl

theorem handleInfoCommand_not_found (srv : AIPServer) (t : String)
    (ht : t ≠ "") (hlk : lookupTool srv t = none) :
    handleInfoCommand srv (some t) = "ERR|404|" ++ escapeString ("Tool not found: " ++ t) := by
  simp [handleInfoCommand, ht, hlk, serialize_tool_not_found t]

theorem handleCallCommand_not_found (srv : AIPServer) (t : String)
    (args : Option (List Value)) (ht : t ≠ "") (hlk : lookupTool srv t = none) :
    handleCallCommand srv (some t) args =
      "ERR|404|" ++ escapeString ("Tool not found: " ++ t) := by
  simp [handleCallCommand, ht, hlk, serialize_tool_not_found t]

/-- **C3.** For every tool name absent from the registry: the JSON-RPC
invocation path fails with a `ToolExecutionError` whose message carries the
attempted name and "Tool not found"; the compact CALL and INFO dispatches
answer `ERR|404|Tool not found: <name>`; and the concrete input
`INFO|unknown.tool` yields exactly `ERR|404|Tool not found: unknown.tool`.
Each statement is universally quantified over the server, so the response
is independent of every registered handler — no handler is invoked. -/
theorem c3_unknown_tool_not_found :
    (∀ (srv : AIPServer) (args : Value) (name : String),
      lookupTool srv name = none →
      handleToolInvoke srv (.obj [("tool", .str name), ("arguments", args)]) =
        .error (toolExecutionError name "Tool not found" none) ∧
      (toolExecutionError name "Tool not found" none).message =
        "Tool execution failed: " ++ (name ++ " - Tool not found")) ∧
    (∀ (srv : AIPServer) (t : String) (args : Option (List Value)),
      t ≠ "" → lookupTool srv t = none →
      handleCallCommand srv (some t) args =
        "ERR|404|" ++ escapeString ("Tool not found: " ++ t)) ∧
    (∀ (srv : AIPServer) (t : String),
      t ≠ "" → lookupTool srv t = none →
      handleInfoCommand srv (some t) =
        "ERR|404|" ++ escapeString ("Tool not found: " ++ t)) ∧
    (∀ srv : AIPServer, lookupTool srv "unknown.tool" = none →
      handleAICFRequest srv "INFO|unknown.tool" =
        "ERR|404|Tool not found: unknown.tool") := by
  refine ⟨?_, ?_, ?_, ?_⟩
  · intro srv args name hlk
    refine ⟨?_, rfl⟩
    simp [handleToolInvoke, getFieldJS, hlk, jsDisplay]
  · intro srv t args ht hlk
    exact handleCallCommand_not_found srv t args ht hlk
  · intro srv t ht hlk
    exact handleInfoCommand_not_found srv t ht hlk
  · intro srv hlk
    unfold handleAICFRequest
    show handleInfoCommand srv (some "unknown.tool") = _
    rw [handleInfoCommand_not_found srv "unknown.tool" (by decide) hlk]
    rfl

/-- Witness for C3 at the empty server. -/
theorem c3_unknown_tool_not_found_witness :
    handleAICFRequest {} "INFO|unknown.tool" = "ERR|404|Tool not found: unknown.tool" ∧
    handleToolInvoke {} (.obj [("tool", .str "nope"), ("arguments", .obj [])]) =
      .error (toolExecutionError "nope" "Tool not found" none) :=
  ⟨c3_unknown_tool_not_found.2.2.2 {} rfl,
   (c3_unknown_tool_not_found.1 {} (.obj []) "nope" rfl).1⟩

/-- **C6.** `parseArgument` types each CALL argument field after
unescaping, in priority order: JSON-shaped fields are JSON-parsed with a
string fallback; otherwise the numeric pattern gives a number; otherwise
the exact literals `true`/`false`/`null`/`undefined` give a boolean, null,
or the absent value; otherwise the field stays a string.  In particular
`123` becomes the number 123 and `{"a":1}` becomes an object. -/
theorem c6_argument_type_inference :
    (∀ s : String, jsonShaped (unescapeString s) = true →
      parseArgument s = (match jsonParseJS (unescapeString s) with
        | some v => v
        | none => .str (unescapeString s))) ∧
    (∀ s : String, jsonShaped (unescapeString s) = false →
      numericPat (unescapeString s) = true →
      parseArgument s = .num (jsNumber (unescapeString s))) ∧
    (∀ s : String, jsonShaped (unescapeString s) = false →
      numericPat (unescapeString s) = false →
      (unescapeString s = "true" → parseArgument s = .bool true) ∧
      (unescapeString s = "false" → parseArgument s = .bool false) ∧
      (unescapeString s = "null" → parseArgument s = .null) ∧
      (unescapeString s = "undefined" → parseArgument s = .undefined) ∧
      (unescapeString s ≠ "true" → unescapeString s ≠ "false" →
       unescapeString s ≠ "null" → unescapeString s ≠ "undefined" →
       parseArgument s = .str (unescapeString s))) ∧
    parseArgument "123" = .num 123 ∧
    parseArgument "\x7b\"a\":1\x7d" = .obj [("a", .num 1)] := by
  refine ⟨?_, ?_, ?_, rfl, rfl⟩
  · intro s hj
    simp [parseArgument, hj]
  · intro s hj hn
    simp [parseArgument, hj, hn]
  · intro s hj hn
    refine ⟨?_, ?_, ?_, ?_, ?_⟩ <;> intro h1
    · simp only [parseArgument, h1]
      rfl
    · simp only [parseArgument, h1]
      rfl
    · simp only [parseArgument, h1]
      rfl
    · simp only [parseArgument, h1]
      rfl
    · intro h2 h3 h4
      simp [parseArgument, hj, hn, h1, h2, h3, h4]

/-- Witness for C6: a numeric field and a plain-string field, through the
typing conjuncts. -/
theorem c6_argument_type_inference_witness :
    parseArgument "42" = .num (jsNumber (unescapeString "42")) ∧
    parseArgument "hello" = .str (unescapeString "hello") :=
  ⟨c6_argument_type_inference.2.1 "42" (by decide) (by decide),
   (c6_argument_type_inference.2.2.1 "hello" (by decide) (by decide)).2.2.2.2
     (by decide) (by decide) (by decide) (by decide)⟩

/-- A well-formed compact response line: one of the four response words of
the grammar, pipe-terminated. -/
def wellFormedAICF (r : String) : Prop :=
  (∃ t, r = "OK|" ++ t) ∨ (∃ t, r = "ERR|" ++ t) ∨
  (∃ t, r = "TOOLS|" ++ t) ∨ (∃ t, r = "TOOL|" ++ t)

theorem serializeErrorResponse_shape (c : Int) (m : String) :
    ∃ t, serializeAICFResponse (createErrorResponse c m) = "ERR|" ++ t := by
  unfold serializeAICFResponse createErrorResponse
  exact ⟨_, rfl⟩

theorem serializeSuccessResponse_shape (v : Value) :
    ∃ t, serializeAICFResponse (createSuccessResponse v) = "OK|" ++ t := by
  unfold serializeAICFResponse createSuccessResponse
  exact ⟨_, rfl⟩

theorem serializeToolList_shape (l : List String) :
    ∃ t, serializeToolList l = "TOOLS|" ++ t := by
  unfold serializeToolList
  exact ⟨_, rfl⟩

theorem serializeToolInfo_shape (n d : String) (a : List (String × String)) :
    ∃ t, serializeToolInfo n d a = "TOOL|" ++ t := by
  unfold serializeToolInfo joinPipe
  exact ⟨_, rfl⟩

theorem handleInfoCommand_shape (srv : AIPServer) (tool : Option String) :
    wellFormedAICF (handleInfoCommand srv tool) := by
  unfold handleInfoCommand
  split
  · exact Or.inr (Or.inl (serializeErrorResponse_shape 400 _))
  · split
    · exact Or.inr (Or.inl (serializeErrorResponse_shape 400 _))
    · split
      · exact Or.inr (Or.inl (serializeErrorResponse_shape 404 _))
      · exact Or.inr (Or.inr (Or.inr (serializeToolInfo_shape _ _ _)))

theorem handleCallCommand_shape (srv : AIPServer) (tool : Option String)
    (args : Option (List Value)) :
    wellFormedAICF (handleCallCommand srv tool args) := by
  unfold handleCallCommand
  split
  · exact Or.inr (Or.inl (serializeErrorResponse_shape 400 _))
  · split
    · exact Or.inr (Or.inl (serializeErrorResponse_shape 400 _))
    · split
      · exact Or.inr (Or.inl (serializeErrorResponse_shape 404 _))
      · split
        · exact Or.inl (serializeSuccessResponse_shape _)
        · exact Or.inr (Or.inl (serializeErrorResponse_shape 500 _))

theorem handleAICFRequest_wellFormed (srv : AIPServer) (input : String) :
    wellFormedAICF (handleAICFRequest srv input) := by
  unfold handleAICFRequest
  split
  · exact Or.inr (Or.inl (serializeErrorResponse_shape 400 _))
  · split
    · exact Or.inr (Or.inr (Or.inl (serializeToolList_shape _)))
    · exact handleInfoCommand_shape srv _
    · exact handleCallCommand_shape srv _ _

theorem serialize_err500 (m : String) (hm : m ≠ "") :
    serializeAICFResponse (createErrorResponse 500 m) = "ERR|500|" ++ escapeString m := by
  unfold serializeAICFResponse createErrorResponse
  simp only [if_neg (by decide : ¬(500 : Int) = 0), if_neg hm]
  rfl

/-- Exactly one of `result`/`error` is present in a JSON-RPC response. -/
def exactlyOneOutcome (r : JSONRPCResponse) : Prop :=
  (r.result.isSome = true ∧ r.error = none) ∨ (r.result = none ∧ r.error.isSome = true)

theorem handleRequest_exactlyOne (srv : AIPServer) (env : Env) (req : Value) :
    exactlyOneOutcome (handleRequest srv env req).1 := by
  unfold handleRequest
  repeat' split
  all_goals first
    | exact Or.inl ⟨rfl, rfl⟩
    | exact Or.inr ⟨rfl, rfl⟩

/-- **C5.** Dispatch never surfaces a raw exception: every compact-format
input yields a well-formed `OK|`/`ERR|`/`TOOLS|`/`TOOL|` line, a CALL whose
handler throws yields `ERR|500|<message>`; every JSON-RPC request yields a
response carrying exactly one of `result`/`error`, and an invoke whose
handler throws yields the `ToolExecutionError` error response. -/
theorem c5_handler_failures_become_responses :
    (∀ (srv : AIPServer) (input : String), wellFormedAICF (handleAICFRequest srv input)) ∧
    (∀ (srv : AIPServer) (input t : String) (args : Option (List Value))
       (cap : ToolCapability) (h : ToolHandler) (m : String),
      parseAICFRequest input = .ok { command := .CALL, tool := some t, arguments := args } →
      t ≠ "" → lookupTool srv t = some (cap, h) →
      h (convertArrayToObject (args.getD []) cap.schema) = .error m → m ≠ "" →
      handleAICFRequest srv input = "ERR|500|" ++ escapeString m) ∧
    (∀ (srv : AIPServer) (env : Env) (req : Value),
      exactlyOneOutcome (handleRequest srv env req).1) ∧
    (∀ (srv : AIPServer) (env : Env) (id p : Value) (name : String)
       (cap : ToolCapability) (h : ToolHandler) (m : String),
      (isJsString id || isJsNumber id) = true → jsFalsy p = false →
      getFieldJS p "tool" = .str name → lookupTool srv name = some (cap, h) →
      h (getFieldJS p "arguments") = .error m →
      (handleRequest srv env (.obj [("jsonrpc", .str "2.0"), ("id", id),
        ("method", .str "aip.tool.invoke"), ("params", p)])).1 =
        createJSONRPCError id 1001
          ("Tool execution failed: " ++ (name ++ (" - " ++ m)))
          (some (.obj [("originalError", .str m)]))) := by
  refine ⟨handleAICFRequest_wellFormed, ?_, handleRequest_exactlyOne, ?_⟩
  · intro srv input t args cap h m hparse ht hlk herr hm
    unfold handleAICFRequest
    rw [hparse]
    show handleCallCommand srv (some t) args = _
    simp [handleCallCommand, ht, hlk, herr, serialize_err500 m hm]
  · intro srv env id p name cap h m hid hp htool hlk herr
    have hval : validateJSONRPCRequest (.obj [("jsonrpc", .str "2.0"), ("id", id),
        ("method", .str "aip.tool.invoke"), ("params", p)]) = true := by
      have h1 : isJsString (Value.str "aip.tool.invoke") = true := rfl
      simp [validateJSONRPCRequest, getFieldJS, List.find?, isStrEq, hid, h1]
    have hgid : getFieldJS (.obj [("jsonrpc", .str "2.0"), ("id", id),
        ("method", .str "aip.tool.invoke"), ("params", p)]) "id" = id := rfl
    have hgm : getFieldJS (.obj [("jsonrpc", .str "2.0"), ("id", id),
        ("method", .str "aip.tool.invoke"), ("params", p)]) "method" =
        .str "aip.tool.invoke" := rfl
    have hgp : getFieldJS (.obj [("jsonrpc", .str "2.0"), ("id", id),
        ("method", .str "aip.tool.invoke"), ("params", p)]) "params" = p := rfl
    unfold handleRequest
    rw [hval, hgm, hgid, hgp]
    simp [isStrEq, hp, handleToolInvoke, htool, hlk, herr, jsDisplay,
      toolExecutionError, createJSONRPCError]

/-- Witness for C5: a registered handler that throws `kaboom` produces the
`ERR|500|kaboom` line and the code-1001 error response. -/
theorem c5_handler_failures_become_responses_witness :
    handleAICFRequest
      ⟨{}, [("boom", ⟨"boom", none, none⟩, fun _ => .error "kaboom")], [], []⟩
      "CALL|boom" = "ERR|500|kaboom" ∧
    (handleRequest
      ⟨{}, [("boom", ⟨"boom", none, none⟩, fun _ => .error "kaboom")], [], []⟩
      ⟨0, ""⟩
      (.obj [("jsonrpc", .str "2.0"), ("id", .num 7),
        ("method", .str "aip.tool.invoke"),
        ("params", .obj [("tool", .str "boom"), ("arguments", .null)])])).1 =
      createJSONRPCError (.num 7) 1001 "Tool execution failed: boom - kaboom"
        (some (.obj [("originalError", .str "kaboom")])) := by
  constructor
  · exact (c5_handler_failures_become_responses.2.1
      ⟨{}, [("boom", ⟨"boom", none, none⟩, fun _ => .error "kaboom")], [], []⟩
      "CALL|boom" "boom" (some []) ⟨"boom", none, none⟩ (fun _ => .error "kaboom") "kaboom"
      rfl (by decide) rfl rfl (by decide)).trans rfl
  · exact (c5_handler_failures_become_responses.2.2.2
      ⟨{}, [("boom", ⟨"boom", none, none⟩, fun _ => .error "kaboom")], [], []⟩
      ⟨0, ""⟩ (.num 7) (.obj [("tool", .str "boom"), ("arguments", .null)])
      "boom" ⟨"boom", none, none⟩ (fun _ => .error "kaboom") "kaboom"
      rfl rfl rfl rfl rfl).trans rfl

/-- Witness for C10: `list` and `call|tool|x` parse as their uppercase
spellings. -/
theorem c10_command_case_insensitive_witness :
    parseAICFRequest "list" = parseAICFRequest "LIST" ∧
    parseAICFRequest "call|tool|x" = parseAICFRequest "CALL|tool|x" :=
  ⟨c10_command_case_insensitive "list" "LIST" "list" "LIST" [] (by decide) (by decide)
      rfl rfl (by decide),
   c10_command_case_insensitive "call|tool|x" "CALL|tool|x" "call" "CALL" ["tool", "x"]
      (by decide) (by decide) rfl rfl (by decide)⟩

end AIP
